import Mathlib

/-!
Shallow embedding of the form-submission state engine of
`apps/nextjs-app/src/features/app/blocks/view/form/components/FormPreviewer.tsx`.

The component state consists of
  * `formDataMap` — the durable draft store (local storage): a mapping from
    storage key to a per-form draft mapping,
  * `formData` — the in-memory draft mapping (field id → value),
  * `errors` — the set of field ids currently failing validation,
  * `loading` — the busy flag of the submission lifecycle.
JavaScript objects and `Set`s are embedded as association lists with the same
lookup / membership semantics; handlers become explicit state transformers, and
the external effects of `onSubmit` (the call to the `submit` collaborator, the
intermediate busy state, the success toast) are recorded in the outcome.
-/

namespace FormPreviewer

/-- A JavaScript form value as far as the component inspects it: `vNull`
stands for both `null` and `undefined` (the code only ever compares with the
loose `== null`), strings and numbers are kept so that the loose comparison
with `''` can be rendered faithfully. -/
inductive Value where
  | vNull
  | vStr (s : String)
  | vNum (n : Int)
deriving DecidableEq, Repr

/-- JavaScript `value == null` (loose): true exactly on `null`/`undefined`. -/
def Value.isNullish : Value → Bool
  | .vNull => true
  | .vStr _ => false
  | .vNum _ => false

/-- JavaScript loose equality `value == \x27\x27` with the empty string:
`null == \x27\x27` is false, a string compares by equality, a number compares
with the numeric coercion of `\x27\x27`, which is `0`. -/
def Value.looseEqEmptyStr : Value → Bool
  | .vNull => false
  | .vStr s => s = ""
  | .vNum n => n = 0

/-- `formData[fieldId] != null` is false: absent keys read as `undefined`,
which is loosely equal to `null`. -/
def entryIsNull : Option Value → Bool
  | none => true
  | some v => v.isNullish

/-- An in-memory draft mapping `Record<string, unknown>` (field id → value). -/
abbrev Draft := List (String × Value)

/-- The durable draft store `Record<string, Record<string, unknown>>`
(storage key → draft mapping). -/
abbrev DraftStore := List (String × Draft)

/-- Object property lookup `m[k]`, `none` when the key is absent. -/
def alistLookup {α : Type} : List (String × α) → String → Option α
  | [], _ => none
  | (k', v) :: rest, k => if k' = k then some v else alistLookup rest k

/-- `lodash.omit m [k]` / `useMap`'s `remove`: delete the key entirely. -/
def alistRemove {α : Type} : List (String × α) → String → List (String × α)
  | [], _ => []
  | (k', v) :: rest, k =>
    if k' = k then alistRemove rest k else (k', v) :: alistRemove rest k

/-- Object spread `{...m, [k]: v}` / `useMap`'s `set`: insert or overwrite. -/
def alistInsert {α : Type} (m : List (String × α)) (k : String) (v : α) : List (String × α) :=
  alistRemove m k ++ [(k, v)]

/-- The slice of a field the engine looks at: its id and the two flags that
decide visibility.  The `required` flag lives in the view's `columnMeta` and is
passed separately as a function of the field id. -/
structure FieldDescriptor where
  id : String
  isComputed : Bool
  isLookup : Bool
deriving DecidableEq, Repr

/-- `fields.filter(({ isComputed, isLookup }) => !isComputed && !isLookup)`. -/
def visibleFields (fields : List FieldDescriptor) : List FieldDescriptor :=
  fields.filter (fun f => !f.isComputed && !f.isLookup)

/-- The reactive state of the component. -/
structure FormState where
  formDataMap : DraftStore
  formData : Draft
  errors : List String
  loading : Bool
deriving DecidableEq, Repr

/-- `useSet`'s `reset`: the error set becomes empty, whatever it held. -/
def resetErrors (_ : List String) : List String := []

/-- `useSet`'s `add`: sets ignore duplicate insertions. -/
def addError (errors : List String) (e : String) : List String :=
  if errors.contains e then errors else errors ++ [e]

/-- `useSet`'s `remove`. -/
def removeError (errors : List String) (e : String) : List String :=
  errors.filter (fun x => decide (x ≠ e))

/-- The `onChange` handler.  `localKey` is the storage key of this form
session.  The deferred `setFormDataMap` write runs against the draft value the
handler closed over, which coincides with the updated draft, so the durable
entry is the write-through image of the in-memory draft. -/
def onChange (localKey : String) (st : FormState) (fieldId : String) (value : Value) :
    FormState :=
  let errors :=
    if st.errors.contains fieldId && !value.isNullish && !value.looseEqEmptyStr then
      removeError st.errors fieldId
    else st.errors
  if value.isNullish then
    { st with
      errors := errors
      formData := alistRemove st.formData fieldId
      formDataMap := alistInsert st.formDataMap localKey (alistRemove st.formData fieldId) }
  else
    { st with
      errors := errors
      formData := alistInsert st.formData fieldId value
      formDataMap :=
        alistInsert st.formDataMap localKey (alistInsert st.formData fieldId value) }

/-- `visibleFields.reduce((acc, field) => { if (columnMeta[field.id].required)
acc.push(field.id); return acc; }, [])`. -/
def requiredIds (vf : List FieldDescriptor) (required : String → Bool) : List String :=
  vf.foldl (fun acc f => if required f.id then acc ++ [f.id] else acc) []

/-- The body of the `requiredFieldIds.forEach` loop of `onVerify`: the pair is
(error set so far, `firstErrorFieldId` so far, with `""` as the "unset"
sentinel the code uses). -/
def verifyStep (formData : Draft) (p : List String × String) (fieldId : String) :
    List String × String :=
  if !entryIsNull (alistLookup formData fieldId) then p
  else (addError p.1 fieldId, if p.2 = "" then fieldId else p.2)

/-- The result of `onVerify`: the returned boolean, the error set it leaves
behind, and the `firstErrorFieldId` it scrolls to (`""` when none was set). -/
structure VerifyResult where
  ok : Bool
  errors : List String
  firstErrorFieldId : String
deriving DecidableEq, Repr

/-- The `onVerify` handler.  `errors0` is the error set before the call; the
first statement `resetErrors()` discards it. -/
def onVerify (vf : List FieldDescriptor) (required : String → Bool)
    (errors0 : List String) (formData : Draft) : VerifyResult :=
  let errors := resetErrors errors0
  let requiredFieldIds := requiredIds vf required
  if requiredFieldIds.isEmpty then
    { ok := true, errors := errors, firstErrorFieldId := "" }
  else
    let r := requiredFieldIds.foldl (verifyStep formData) (errors, "")
    if r.2 = "" then { ok := true, errors := r.1, firstErrorFieldId := "" }
    else { ok := false, errors := r.1, firstErrorFieldId := r.2 }

/-- The `onReset` handler: busy flag off, then `resetFormData()` and removal
of the durable entry (`omit(formDataMap, [localKey])`).  `resetFormData` is
the `reset` action of react-use's `useMap`, which restores the map to the
initial value captured at mount — here `formDataMap?.[localKey] ?? {}`, the
draft persisted for this storage key when the component first rendered.  That
mount-time seed is the `initial` parameter; the in-memory draft becomes
`initial` again, not the empty mapping. -/
def onReset (localKey : String) (initial : Draft) (st : FormState) : FormState :=
  { st with
    loading := false
    formData := initial
    formDataMap := alistRemove st.formDataMap localKey }

/-- The observable outcome of dispatching one event: the arguments of every
call made to the external `submit` collaborator, the state while that call is
in flight (when the submitting phase is reached), whether the success toast
was emitted, and the state once everything has settled. -/
structure SubmitOutcome where
  submitCalls : List Draft
  inFlight : Option FormState
  notified : Bool
  final : FormState
deriving DecidableEq, Repr

/-- The `onSubmit` handler.  `hasSubmit` records whether the optional `submit`
prop was supplied, `initial` is the mount-time draft seed that `onReset`
restores.  On verification failure the handler returns before any of the
submission steps; on success it sets the busy flag, awaits the collaborator
when present, and the 1000 ms timer then runs `onReset` and fires the toast. -/
def onSubmit (hasSubmit : Bool) (localKey : String) (initial : Draft)
    (vf : List FieldDescriptor) (required : String → Bool) (st : FormState) :
    SubmitOutcome :=
  let vr := onVerify vf required st.errors st.formData
  let st1 := { st with errors := vr.errors }
  if !vr.ok then
    { submitCalls := [], inFlight := none, notified := false, final := st1 }
  else
    let st2 := { st1 with loading := true }
    let calls := if hasSubmit then [st2.formData] else []
    { submitCalls := calls
      inFlight := some st2
      notified := true
      final := onReset localKey initial st2 }

/-- A user-visible event of the engine. -/
inductive Event where
  | change (fieldId : String) (value : Value)
  | submit
  | reset
deriving DecidableEq, Repr

/-- One step of the engine: dispatching an event yields the external effects
and the settled state.  `initial` is the mount-time draft seed of this
session.  `change` and `reset` make no external call and emit no toast. -/
def dispatch (hasSubmit : Bool) (localKey : String) (initial : Draft)
    (vf : List FieldDescriptor) (required : String → Bool) (st : FormState) :
    Event → SubmitOutcome
  | .change fieldId value =>
    { submitCalls := [], inFlight := none, notified := false
      final := onChange localKey st fieldId value }
  | .reset =>
    { submitCalls := [], inFlight := none, notified := false
      final := onReset localKey initial st }
  | .submit => onSubmit hasSubmit localKey initial vf required st

/-- The in-memory draft seeded on mount: `formDataMap?.[localKey] ?? {}` —
only this session's entry of the durable store is read. -/
def initialFormData (formDataMap : DraftStore) (localKey : String) : Draft :=
  (alistLookup formDataMap localKey).getD []

/-- A draft mapping holds no explicit `null` entry. -/
def noExplicitNulls (m : Draft) : Prop := ∀ p ∈ m, p.2 ≠ Value.vNull

instance (m : Draft) : Decidable (noExplicitNulls m) := by
  unfold noExplicitNulls
  infer_instance

/-! ### Association-list laws -/

theorem alistLookup_remove_self {α : Type} (m : List (String × α)) (k : String) :
    alistLookup (alistRemove m k) k = none := by
  induction m with
  | nil => rfl
  | cons p rest ih =>
    obtain ⟨k', v⟩ := p
    by_cases h : k' = k <;> simp [alistRemove, alistLookup, h, ih]

theorem alistLookup_remove_ne {α : Type} (m : List (String × α)) (k k' : String)
    (h : k' ≠ k) : alistLookup (alistRemove m k) k' = alistLookup m k' := by
  induction m with
  | nil => rfl
  | cons p rest ih =>
    obtain ⟨a, v⟩ := p
    by_cases ha : a = k
    · have ha' : a ≠ k' := by rw [ha]; exact Ne.symm h
      simp [alistRemove, alistLookup, ha, ha', ih, Ne.symm h]
    · by_cases ha' : a = k' <;>
        simp [alistRemove, alistLookup, ha, ha', ih, h, Ne.symm h]

theorem alistLookup_append {α : Type} (l1 l2 : List (String × α)) (k : String) :
    alistLookup (l1 ++ l2) k =
      match alistLookup l1 k with
      | some v => some v
      | none => alistLookup l2 k := by
  induction l1 with
  | nil => rfl
  | cons p rest ih =>
    obtain ⟨a, v⟩ := p
    by_cases ha : a = k <;> simp [alistLookup, ha, ih]

theorem alistLookup_insert_self {α : Type} (m : List (String × α)) (k : String) (v : α) :
    alistLookup (alistInsert m k v) k = some v := by
  rw [alistInsert, alistLookup_append, alistLookup_remove_self]
  simp [alistLookup]

theorem alistLookup_insert_ne {α : Type} (m : List (String × α)) (k k' : String) (v : α)
    (h : k' ≠ k) : alistLookup (alistInsert m k v) k' = alistLookup m k' := by
  rw [alistInsert, alistLookup_append, alistLookup_remove_ne m k k' h]
  cases hm : alistLookup m k' <;> simp [alistLookup, Ne.symm h, hm]

theorem mem_of_mem_alistRemove {α : Type} {m : List (String × α)} {k : String}
    {p : String × α} (h : p ∈ alistRemove m k) : p ∈ m := by
  induction m with
  | nil => exact absurd h (List.not_mem_nil p)
  | cons q rest ih =>
    obtain ⟨a, v⟩ := q
    by_cases ha : a = k
    · simp only [alistRemove, ha, if_pos rfl] at h
      exact List.mem_cons_of_mem _ (ih h)
    · simp only [alistRemove, if_neg ha] at h
      rcases List.mem_cons.mp h with h1 | h1
      · exact h1 ▸ List.mem_cons_self _ _
      · exact List.mem_cons_of_mem _ (ih h1)

theorem mem_alistInsert {α : Type} {m : List (String × α)} {k : String} {v : α}
    {p : String × α} (h : p ∈ alistInsert m k v) : p ∈ alistRemove m k ∨ p = (k, v) := by
  rcases List.mem_append.mp h with h1 | h1
  · exact Or.inl h1
  · exact Or.inr (List.mem_singleton.mp h1)

/-! ### Error-set laws -/

theorem contains_iff_mem {l : List String} {e : String} :
    l.contains e = true ↔ e ∈ l := by
  rw [List.contains_iff_exists_mem_beq]
  constructor
  · rintro ⟨a, ha, hb⟩
    exact (eq_of_beq hb) ▸ ha
  · intro h
    exact ⟨e, h, by simp⟩

theorem mem_addError {l : List String} {e x : String} :
    x ∈ addError l e ↔ x ∈ l ∨ x = e := by
  unfold addError
  by_cases h : l.contains e = true
  · simp only [h, if_pos]
    constructor
    · exact Or.inl
    · rintro (hx | rfl)
      · exact hx
      · exact contains_iff_mem.mp h
  · rw [if_neg h]
    simp [List.mem_append]

theorem mem_removeError {l : List String} {e x : String} :
    x ∈ removeError l e ↔ x ∈ l ∧ x ≠ e := by
  simp [removeError, List.mem_filter]

/-! ### Characterization of the required-field scan of `onVerify` -/

theorem requiredIds_aux (req : String → Bool) (vf : List FieldDescriptor) :
    ∀ acc : List String,
      vf.foldl (fun acc f => if req f.id then acc ++ [f.id] else acc) acc =
        acc ++ (vf.filter (fun f => req f.id)).map (fun f => f.id) := by
  induction vf with
  | nil => intro acc; simp
  | cons f rest ih =>
    intro acc
    by_cases hf : req f.id = true <;> simp [hf, ih]

theorem requiredIds_eq (vf : List FieldDescriptor) (req : String → Bool) :
    requiredIds vf req = (vf.filter (fun f => req f.id)).map (fun f => f.id) := by
  simpa using requiredIds_aux req vf []

theorem mem_requiredIds {vf : List FieldDescriptor} {req : String → Bool} {x : String} :
    x ∈ requiredIds vf req ↔ ∃ f ∈ vf, req f.id = true ∧ f.id = x := by
  rw [requiredIds_eq]
  simp only [List.mem_map, List.mem_filter]
  constructor
  · rintro ⟨f, ⟨h1, h2⟩, h3⟩
    exact ⟨f, h1, h2, h3⟩
  · rintro ⟨f, h1, h2, h3⟩
    exact ⟨f, ⟨h1, h2⟩, h3⟩

theorem find?_requiredIds (vf : List FieldDescriptor) (req : String → Bool)
    (q : String → Bool) :
    (requiredIds vf req).find? q =
      (vf.find? (fun f => req f.id && q f.id)).map (fun f => f.id) := by
  rw [requiredIds_eq]
  induction vf with
  | nil => rfl
  | cons f rest ih =>
    by_cases hreq : req f.id = true
    · by_cases hq : q f.id = true <;>
        simp [List.filter_cons, hreq, hq, List.find?_cons_of_pos, List.find?_cons_of_neg, ih]
    · simp [List.filter_cons, hreq, List.find?_cons_of_neg, ih]

theorem verifyFold_snd_stable (D : Draft) (ids : List String) :
    ∀ p : List String × String, p.2 ≠ "" → (ids.foldl (verifyStep D) p).2 = p.2 := by
  induction ids with
  | nil => intro p _; rfl
  | cons a rest ih =>
    intro p h
    by_cases ha : entryIsNull (alistLookup D a) = true
    · have hstep : verifyStep D p a = (addError p.1 a, p.2) := by
        simp [verifyStep, ha, if_neg h]
      rw [List.foldl_cons, hstep]
      exact ih _ h
    · have hstep : verifyStep D p a = p := by simp [verifyStep, ha]
      rw [List.foldl_cons, hstep]
      exact ih p h

theorem verifyFold_snd_eq (D : Draft) (ids : List String)
    (hne : ∀ x ∈ ids, x ≠ "") (errs : List String) :
    (ids.foldl (verifyStep D) (errs, "")).2 =
      ((ids.find? (fun x => entryIsNull (alistLookup D x))).getD "") := by
  induction ids generalizing errs with
  | nil => rfl
  | cons a rest ih =>
    have ha0 : a ≠ "" := hne a (List.mem_cons_self a rest)
    by_cases ha : entryIsNull (alistLookup D a) = true
    · have hstep : verifyStep D (errs, "") a = (addError errs a, a) := by
        simp [verifyStep, ha]
      rw [List.foldl_cons, hstep,
        List.find?_cons_of_pos (p := fun x => entryIsNull (alistLookup D x)) rest ha]
      simpa using verifyFold_snd_stable D rest (addError errs a, a) ha0
    · have hstep : verifyStep D (errs, "") a = (errs, "") := by
        simp [verifyStep, ha]
      rw [List.foldl_cons, hstep,
        List.find?_cons_of_neg (p := fun x => entryIsNull (alistLookup D x)) rest (by simp [ha])]
      exact ih (fun x hx => hne x (List.mem_cons_of_mem a hx)) errs

theorem verifyFold_fst_mem (D : Draft) (ids : List String) :
    ∀ (p : List String × String) (e : String),
      e ∈ (ids.foldl (verifyStep D) p).1 ↔
        e ∈ p.1 ∨ (e ∈ ids ∧ entryIsNull (alistLookup D e) = true) := by
  induction ids with
  | nil => intro p e; simp
  | cons a rest ih =>
    intro p e
    by_cases ha : entryIsNull (alistLookup D a) = true
    · have hstep : verifyStep D p a = (addError p.1 a, if p.2 = "" then a else p.2) := by
        simp [verifyStep, ha]
      rw [List.foldl_cons, hstep, ih]
      simp only [mem_addError, List.mem_cons]
      constructor
      · rintro ((he | rfl) | ⟨hr, hm⟩)
        · exact Or.inl he
        · exact Or.inr ⟨Or.inl rfl, ha⟩
        · exact Or.inr ⟨Or.inr hr, hm⟩
      · rintro (he | ⟨(rfl | hr), hm⟩)
        · exact Or.inl (Or.inl he)
        · exact Or.inl (Or.inr rfl)
        · exact Or.inr ⟨hr, hm⟩
    · have hstep : verifyStep D p a = p := by simp [verifyStep, ha]
      rw [List.foldl_cons, hstep, ih]
      simp only [List.mem_cons]
      constructor
      · rintro (he | ⟨hr, hm⟩)
        · exact Or.inl he
        · exact Or.inr ⟨Or.inr hr, hm⟩
      · rintro (he | ⟨(rfl | hr), hm⟩)
        · exact Or.inl he
        · exact absurd hm ha
        · exact Or.inr ⟨hr, hm⟩

theorem onVerify_errors_eq (vf : List FieldDescriptor) (req : String → Bool)
    (E : List String) (D : Draft) :
    (onVerify vf req E D).errors =
      ((requiredIds vf req).foldl (verifyStep D) ([], "")).1 := by
  simp only [onVerify, resetErrors]
  split
  · next h =>
    have h0 : requiredIds vf req = [] := by simpa using h
    simp [h0]
  · split <;> rfl

theorem onVerify_first_eq (vf : List FieldDescriptor) (req : String → Bool)
    (E : List String) (D : Draft) :
    (onVerify vf req E D).firstErrorFieldId =
      ((requiredIds vf req).foldl (verifyStep D) ([], "")).2 := by
  simp only [onVerify, resetErrors]
  split
  · next h =>
    have h0 : requiredIds vf req = [] := by simpa using h
    simp [h0]
  · split
    · next h2 => exact h2.symm
    · rfl

theorem onVerify_ok_iff (vf : List FieldDescriptor) (req : String → Bool)
    (E : List String) (D : Draft) :
    (onVerify vf req E D).ok = true ↔
      ((requiredIds vf req).foldl (verifyStep D) ([], "")).2 = "" := by
  simp only [onVerify, resetErrors]
  split
  · next h =>
    have h0 : requiredIds vf req = [] := by simpa using h
    simp [h0]
  · split
    · next h2 => simpa using h2
    · next h2 => simpa using h2

theorem onVerify_errors_mem (vf : List FieldDescriptor) (req : String → Bool)
    (E : List String) (D : Draft) (e : String) :
    e ∈ (onVerify vf req E D).errors ↔
      (∃ f ∈ vf, req f.id = true ∧ f.id = e) ∧
        entryIsNull (alistLookup D e) = true := by
  rw [onVerify_errors_eq, verifyFold_fst_mem]
  simp [mem_requiredIds]

theorem onVerify_ok_char (vf : List FieldDescriptor) (req : String → Bool)
    (E : List String) (D : Draft)
    (hid : ∀ f ∈ vf, req f.id = true → f.id ≠ "") :
    ((onVerify vf req E D).ok = true ↔
      ∀ f ∈ vf, req f.id = true → entryIsNull (alistLookup D f.id) = false) := by
  have hne : ∀ x ∈ requiredIds vf req, x ≠ "" := by
    intro x hx
    obtain ⟨f, hf, hreq, rfl⟩ := mem_requiredIds.mp hx
    exact hid f hf hreq
  rw [onVerify_ok_iff, verifyFold_snd_eq D (requiredIds vf req) hne []]
  cases hfind : (requiredIds vf req).find? (fun x => entryIsNull (alistLookup D x)) with
  | none =>
    have hall := List.find?_eq_none.mp hfind
    simp only [Option.getD_none]
    constructor
    · intro _ f hf hreq
      have hmem : f.id ∈ requiredIds vf req := mem_requiredIds.mpr ⟨f, hf, hreq, rfl⟩
      simpa using hall f.id hmem
    · intro _
      trivial
  | some x =>
    have hx : x ∈ requiredIds vf req := List.mem_of_find?_eq_some hfind
    have hxm : entryIsNull (alistLookup D x) = true :=
      List.find?_some (p := fun x => entryIsNull (alistLookup D x)) hfind
    have hxne : x ≠ "" := hne x hx
    simp only [Option.getD_some]
    constructor
    · intro hc
      exact absurd hc hxne
    · intro hforall
      obtain ⟨f, hf, hreq, rfl⟩ := mem_requiredIds.mp hx
      rw [hforall f hf hreq] at hxm
      cases hxm

theorem onVerify_first_char (vf : List FieldDescriptor) (req : String → Bool)
    (E : List String) (D : Draft)
    (hid : ∀ f ∈ vf, req f.id = true → f.id ≠ "")
    (hfail : (onVerify vf req E D).ok = false) :
    ∃ f, vf.find? (fun f => req f.id && entryIsNull (alistLookup D f.id)) = some f ∧
      (onVerify vf req E D).firstErrorFieldId = f.id := by
  have hne : ∀ x ∈ requiredIds vf req, x ≠ "" := by
    intro x hx
    obtain ⟨f, hf, hreq, rfl⟩ := mem_requiredIds.mp hx
    exact hid f hf hreq
  have hok : ¬((onVerify vf req E D).ok = true) := by simp [hfail]
  rw [onVerify_ok_iff, verifyFold_snd_eq D (requiredIds vf req) hne []] at hok
  cases hfind : (requiredIds vf req).find? (fun x => entryIsNull (alistLookup D x)) with
  | none =>
    rw [hfind] at hok
    exact absurd rfl hok
  | some x =>
    have hmap := find?_requiredIds vf req (fun x => entryIsNull (alistLookup D x))
    rw [hfind] at hmap
    cases hvf : vf.find? (fun f => req f.id && entryIsNull (alistLookup D f.id)) with
    | none =>
      rw [hvf] at hmap
      cases hmap
    | some f =>
      rw [hvf] at hmap
      refine ⟨f, rfl, ?_⟩
      rw [onVerify_first_eq, verifyFold_snd_eq D (requiredIds vf req) hne [], hfind]
      simpa using hmap

/-! ### Claims -/

/-- Claim C1, counterexample: with a single visible required field whose id is
the empty string and an empty draft, `onVerify` returns success although the
required field has no non-null entry — the `""` sentinel used for
`firstErrorFieldId` never counts that field as a failure, so the claimed
"success iff every required field has a non-null entry" is false as stated. -/
theorem verify_success_iff_counterexample :
    (onVerify (visibleFields [{ id := "", isComputed := false, isLookup := false }])
        (fun _ => true) [] []).ok = true
    ∧ ¬(∀ f ∈ visibleFields [{ id := "", isComputed := false, isLookup := false }],
          (fun _ => true : String → Bool) f.id = true →
            entryIsNull (alistLookup ([] : Draft) f.id) = false) := by
  constructor
  · rfl
  · decide

/-- Claim C1 (amended with the proviso that no visible field has the empty
string as id): `onVerify` recomputes the error set from scratch — its result
does not depend on the error set before the call; a field whose draft value is
non-null is never left marked; and it returns success iff every required
visible field has a non-null entry in the draft. -/
theorem verify_success_iff_amended (fields : List FieldDescriptor)
    (req : String → Bool) (E E' : List String) (D : Draft)
    (hid : ∀ f ∈ visibleFields fields, f.id ≠ "") :
    (onVerify (visibleFields fields) req E D = onVerify (visibleFields fields) req E' D)
    ∧ (∀ f ∈ visibleFields fields, entryIsNull (alistLookup D f.id) = false →
        f.id ∉ (onVerify (visibleFields fields) req E D).errors)
    ∧ ((onVerify (visibleFields fields) req E D).ok = true ↔
        ∀ f ∈ visibleFields fields, req f.id = true →
          entryIsNull (alistLookup D f.id) = false) := by
  refine ⟨rfl, ?_, ?_⟩
  · intro f hf hnn hmem
    rw [onVerify_errors_mem] at hmem
    rw [hmem.2] at hnn
    cases hnn
  · exact onVerify_ok_char (visibleFields fields) req E D (fun f hf _ => hid f hf)

/-- Witness for the amended claim C1 at a concrete form. -/
theorem verify_success_iff_witness :
    (∀ f ∈ visibleFields [{ id := "a", isComputed := false, isLookup := false }],
        f.id ≠ "")
    ∧ ((onVerify (visibleFields [{ id := "a", isComputed := false, isLookup := false }])
          (fun _ => true) ["stale"] [("a", Value.vStr "x")]
        = onVerify (visibleFields [{ id := "a", isComputed := false, isLookup := false }])
          (fun _ => true) [] [("a", Value.vStr "x")])
      ∧ (∀ f ∈ visibleFields [{ id := "a", isComputed := false, isLookup := false }],
          entryIsNull (alistLookup [("a", Value.vStr "x")] f.id) = false →
            f.id ∉ (onVerify
              (visibleFields [{ id := "a", isComputed := false, isLookup := false }])
              (fun _ => true) ["stale"] [("a", Value.vStr "x")]).errors)
      ∧ ((onVerify (visibleFields [{ id := "a", isComputed := false, isLookup := false }])
            (fun _ => true) ["stale"] [("a", Value.vStr "x")]).ok = true ↔
          ∀ f ∈ visibleFields [{ id := "a", isComputed := false, isLookup := false }],
            (fun _ => true : String → Bool) f.id = true →
              entryIsNull (alistLookup [("a", Value.vStr "x")] f.id) = false)) :=
  ⟨by decide,
    verify_success_iff_amended [{ id := "a", isComputed := false, isLookup := false }]
      (fun _ => true) ["stale"] [] [("a", Value.vStr "x")] (by decide)⟩

/-- Claim C2, counterexample: two visible required fields with ids `""` and
`"b"`, empty draft.  Verify fails, the first required field (in order) with a
null entry is the one with id `""`, yet the reported focus target is `"b"`:
the `""` sentinel skips the genuinely first failing field. -/
theorem verify_first_failing_counterexample :
    (onVerify
        (visibleFields [{ id := "", isComputed := false, isLookup := false },
          { id := "b", isComputed := false, isLookup := false }])
        (fun _ => true) [] []).ok = false
    ∧ (visibleFields [{ id := "", isComputed := false, isLookup := false },
          { id := "b", isComputed := false, isLookup := false }]).find?
        (fun f => (fun _ => true : String → Bool) f.id &&
          entryIsNull (alistLookup ([] : Draft) f.id))
        = some { id := "", isComputed := false, isLookup := false }
    ∧ (onVerify
        (visibleFields [{ id := "", isComputed := false, isLookup := false },
          { id := "b", isComputed := false, isLookup := false }])
        (fun _ => true) [] []).firstErrorFieldId = "b"
    ∧ ("b" : String) ≠ "" := by
  refine ⟨rfl, by decide, rfl, by decide⟩

/-- Claim C2 (amended with the proviso that no visible field has the empty
string as id): whenever `onVerify` fails, the reported `firstErrorFieldId` is
the id of the first visible field, in order, that is required and whose draft
entry is null/absent. -/
theorem verify_first_failing_amended (fields : List FieldDescriptor)
    (req : String → Bool) (E : List String) (D : Draft)
    (hid : ∀ f ∈ visibleFields fields, f.id ≠ "")
    (hfail : (onVerify (visibleFields fields) req E D).ok = false) :
    ∃ f, (visibleFields fields).find?
        (fun f => req f.id && entryIsNull (alistLookup D f.id)) = some f
      ∧ (onVerify (visibleFields fields) req E D).firstErrorFieldId = f.id :=
  onVerify_first_char (visibleFields fields) req E D (fun f hf _ => hid f hf) hfail

/-- Witness for the amended claim C2 at a concrete failing form. -/
theorem verify_first_failing_witness :
    (∀ f ∈ visibleFields [{ id := "a", isComputed := false, isLookup := false },
        { id := "b", isComputed := false, isLookup := false }], f.id ≠ "")
    ∧ (onVerify
        (visibleFields [{ id := "a", isComputed := false, isLookup := false },
          { id := "b", isComputed := false, isLookup := false }])
        (fun _ => true) [] [("b", Value.vStr "x")]).ok = false
    ∧ ∃ f, (visibleFields [{ id := "a", isComputed := false, isLookup := false },
          { id := "b", isComputed := false, isLookup := false }]).find?
        (fun f => (fun _ => true : String → Bool) f.id &&
          entryIsNull (alistLookup [("b", Value.vStr "x")] f.id)) = some f
      ∧ (onVerify
          (visibleFields [{ id := "a", isComputed := false, isLookup := false },
            { id := "b", isComputed := false, isLookup := false }])
          (fun _ => true) [] [("b", Value.vStr "x")]).firstErrorFieldId = f.id :=
  ⟨by decide, by decide,
    verify_first_failing_amended
      [{ id := "a", isComputed := false, isLookup := false },
        { id := "b", isComputed := false, isLookup := false }]
      (fun _ => true) [] [("b", Value.vStr "x")] (by decide) (by decide)⟩

/-- Claim C3, failing evaluation: the form mounts with a persisted draft
`{a: "x"}` at key `k` (so the mount-time seed is `{a: "x"}`), the single
visible field `a` is required and filled, and submit is triggered.  The
collaborator is called exactly once with the draft, the busy flag is set in
flight, the durable entry for `k` is removed, the busy flag ends false and
the toast fires — but the delayed reset restores the in-memory draft to the
mount-time seed `{a: "x"}` instead of clearing it, because `resetFormData`
(react-use `useMap.reset`) restores the initial map captured at mount.  The
claim's "the in-memory draft mapping is empty" is therefore false here. -/
theorem submit_cycle_keeps_mount_seed :
    (onSubmit true "k" [("a", Value.vStr "x")]
        (visibleFields [{ id := "a", isComputed := false, isLookup := false }])
        (fun _ => true)
        (FormState.mk [("k", [("a", Value.vStr "x")])] [("a", Value.vStr "x")] [] false)).submitCalls
      = [[("a", Value.vStr "x")]]
    ∧ (onSubmit true "k" [("a", Value.vStr "x")]
        (visibleFields [{ id := "a", isComputed := false, isLookup := false }])
        (fun _ => true)
        (FormState.mk [("k", [("a", Value.vStr "x")])] [("a", Value.vStr "x")] [] false)).inFlight
      = some (FormState.mk [("k", [("a", Value.vStr "x")])] [("a", Value.vStr "x")] [] true)
    ∧ (onSubmit true "k" [("a", Value.vStr "x")]
        (visibleFields [{ id := "a", isComputed := false, isLookup := false }])
        (fun _ => true)
        (FormState.mk [("k", [("a", Value.vStr "x")])] [("a", Value.vStr "x")] [] false)).final.formData
      = [("a", Value.vStr "x")]
    ∧ (onSubmit true "k" [("a", Value.vStr "x")]
        (visibleFields [{ id := "a", isComputed := false, isLookup := false }])
        (fun _ => true)
        (FormState.mk [("k", [("a", Value.vStr "x")])] [("a", Value.vStr "x")] [] false)).final.formData
      ≠ []
    ∧ alistLookup (onSubmit true "k" [("a", Value.vStr "x")]
        (visibleFields [{ id := "a", isComputed := false, isLookup := false }])
        (fun _ => true)
        (FormState.mk [("k", [("a", Value.vStr "x")])] [("a", Value.vStr "x")] [] false)).final.formDataMap
        "k" = none
    ∧ (onSubmit true "k" [("a", Value.vStr "x")]
        (visibleFields [{ id := "a", isComputed := false, isLookup := false }])
        (fun _ => true)
        (FormState.mk [("k", [("a", Value.vStr "x")])] [("a", Value.vStr "x")] [] false)).final.loading
      = false
    ∧ (onSubmit true "k" [("a", Value.vStr "x")]
        (visibleFields [{ id := "a", isComputed := false, isLookup := false }])
        (fun _ => true)
        (FormState.mk [("k", [("a", Value.vStr "x")])] [("a", Value.vStr "x")] [] false)).notified
      = true := by
  decide

/-- Claim C4: when verification fails at submit time the submission aborts:
no call to the external collaborator, no in-flight phase, no toast, the busy
flag stays false (given it was false), and both the in-memory draft and the
durable store are exactly as before. -/
theorem submit_failure_aborts (hasSubmit : Bool) (localKey : String) (initial : Draft)
    (fields : List FieldDescriptor) (req : String → Bool) (st : FormState)
    (hfail : (onVerify (visibleFields fields) req st.errors st.formData).ok = false)
    (hidle : st.loading = false) :
    (onSubmit hasSubmit localKey initial (visibleFields fields) req st).submitCalls = []
    ∧ (onSubmit hasSubmit localKey initial (visibleFields fields) req st).inFlight = none
    ∧ (onSubmit hasSubmit localKey initial (visibleFields fields) req st).notified = false
    ∧ (onSubmit hasSubmit localKey initial (visibleFields fields) req st).final.loading
        = false
    ∧ (onSubmit hasSubmit localKey initial (visibleFields fields) req st).final.formData
        = st.formData
    ∧ (onSubmit hasSubmit localKey initial (visibleFields fields) req st).final.formDataMap
        = st.formDataMap := by
  simp [onSubmit, hfail, hidle]

/-- Witness for claim C4 at a concrete form whose required field is empty. -/
theorem submit_failure_aborts_witness :
    (onVerify (visibleFields [{ id := "a", isComputed := false, isLookup := false }])
        (fun _ => true)
        (FormState.mk [] [] [] false).errors (FormState.mk [] [] [] false).formData).ok
      = false
    ∧ (FormState.mk [] [] [] false).loading = false
    ∧ ((onSubmit true "k" []
          (visibleFields [{ id := "a", isComputed := false, isLookup := false }])
          (fun _ => true) (FormState.mk [] [] [] false)).submitCalls = []
      ∧ (onSubmit true "k" []
          (visibleFields [{ id := "a", isComputed := false, isLookup := false }])
          (fun _ => true) (FormState.mk [] [] [] false)).inFlight = none
      ∧ (onSubmit true "k" []
          (visibleFields [{ id := "a", isComputed := false, isLookup := false }])
          (fun _ => true) (FormState.mk [] [] [] false)).notified = false
      ∧ (onSubmit true "k" []
          (visibleFields [{ id := "a", isComputed := false, isLookup := false }])
          (fun _ => true) (FormState.mk [] [] [] false)).final.loading = false
      ∧ (onSubmit true "k" []
          (visibleFields [{ id := "a", isComputed := false, isLookup := false }])
          (fun _ => true) (FormState.mk [] [] [] false)).final.formData
        = (FormState.mk [] [] [] false).formData
      ∧ (onSubmit true "k" []
          (visibleFields [{ id := "a", isComputed := false, isLookup := false }])
          (fun _ => true) (FormState.mk [] [] [] false)).final.formDataMap
        = (FormState.mk [] [] [] false).formDataMap) :=
  ⟨by decide, by decide,
    submit_failure_aborts true "k" [] [{ id := "a", isComputed := false, isLookup := false }]
      (fun _ => true) (FormState.mk [] [] [] false) (by decide) (by decide)⟩

/-- Claim C5, failing evaluation: the form mounts with a persisted draft
`{a: "x"}` at key `k` (mount-time seed `{a: "x"}`) and the user triggers an
explicit reset.  No call is made to the submit collaborator, the durable
entry for `k` is removed and the busy flag is false — but the in-memory draft
is restored to the mount-time seed `{a: "x"}` rather than cleared, because
`resetFormData` (react-use `useMap.reset`) restores the initial map captured
at mount.  The claim's "clears the in-memory draft mapping" is false here. -/
theorem reset_restores_mount_seed :
    (dispatch true "k" [("a", Value.vStr "x")] (visibleFields []) (fun _ => true)
        (FormState.mk [("k", [("a", Value.vStr "x")])] [("a", Value.vStr "x")] [] false)
        Event.reset).submitCalls = []
    ∧ (dispatch true "k" [("a", Value.vStr "x")] (visibleFields []) (fun _ => true)
        (FormState.mk [("k", [("a", Value.vStr "x")])] [("a", Value.vStr "x")] [] false)
        Event.reset).final.formData = [("a", Value.vStr "x")]
    ∧ (dispatch true "k" [("a", Value.vStr "x")] (visibleFields []) (fun _ => true)
        (FormState.mk [("k", [("a", Value.vStr "x")])] [("a", Value.vStr "x")] [] false)
        Event.reset).final.formData ≠ []
    ∧ alistLookup
        (dispatch true "k" [("a", Value.vStr "x")] (visibleFields []) (fun _ => true)
          (FormState.mk [("k", [("a", Value.vStr "x")])] [("a", Value.vStr "x")] [] false)
          Event.reset).final.formDataMap "k" = none
    ∧ (dispatch true "k" [("a", Value.vStr "x")] (visibleFields []) (fun _ => true)
        (FormState.mk [("k", [("a", Value.vStr "x")])] [("a", Value.vStr "x")] [] false)
        Event.reset).final.loading = false
    ∧ (dispatch true "k" [("a", Value.vStr "x")] (visibleFields []) (fun _ => true)
        (FormState.mk [("k", [("a", Value.vStr "x")])] [("a", Value.vStr "x")] [] false)
        Event.reset).notified = false := by
  decide

/-- Claim C6: a field-change write-through and a reset touch only the durable
entry of this session's storage key: any other key's entry is unchanged, and
the draft seeded on mount reads only this session's own entry. -/
theorem distinct_keys_frame (hasSubmit : Bool) (localKey k2 : String) (initial : Draft)
    (fields : List FieldDescriptor) (req : String → Bool) (st : FormState)
    (fieldId : String) (value : Value) (m1 m2 : DraftStore)
    (hk : k2 ≠ localKey)
    (hm : alistLookup m1 localKey = alistLookup m2 localKey) :
    alistLookup
        (dispatch hasSubmit localKey initial (visibleFields fields) req st
          (Event.change fieldId value)).final.formDataMap k2
      = alistLookup st.formDataMap k2
    ∧ alistLookup
        (dispatch hasSubmit localKey initial (visibleFields fields) req st
          Event.reset).final.formDataMap k2
      = alistLookup st.formDataMap k2
    ∧ initialFormData m1 localKey = initialFormData m2 localKey := by
  refine ⟨?_, ?_, ?_⟩
  · by_cases hv : value.isNullish = true <;>
      simp [dispatch, onChange, hv, alistLookup_insert_ne _ _ _ _ hk]
  · exact alistLookup_remove_ne st.formDataMap localKey k2 hk
  · unfold initialFormData
    rw [hm]

/-- Witness for claim C6 with two concrete storage keys. -/
theorem distinct_keys_frame_witness :
    (("k2" : String) ≠ "k1"
      ∧ alistLookup [("k1", [("a", Value.vStr "x")])] "k1"
        = alistLookup [("k1", [("a", Value.vStr "x")]), ("k2", [("b", Value.vStr "y")])] "k1")
    ∧ (alistLookup
        (dispatch true "k1" [] (visibleFields []) (fun _ => true)
          (FormState.mk [("k2", [("b", Value.vStr "y")])] [] [] false)
          (Event.change "a" (Value.vStr "x"))).final.formDataMap "k2"
      = alistLookup
          (FormState.mk [("k2", [("b", Value.vStr "y")])] [] [] false).formDataMap "k2"
    ∧ alistLookup
        (dispatch true "k1" [] (visibleFields []) (fun _ => true)
          (FormState.mk [("k2", [("b", Value.vStr "y")])] [] [] false)
          Event.reset).final.formDataMap "k2"
      = alistLookup
          (FormState.mk [("k2", [("b", Value.vStr "y")])] [] [] false).formDataMap "k2"
    ∧ initialFormData [("k1", [("a", Value.vStr "x")])] "k1"
      = initialFormData [("k1", [("a", Value.vStr "x")]), ("k2", [("b", Value.vStr "y")])] "k1") :=
  ⟨⟨by decide, by decide⟩,
    distinct_keys_frame true "k1" "k2" [] [] (fun _ => true)
      (FormState.mk [("k2", [("b", Value.vStr "y")])] [] [] false) "a" (Value.vStr "x")
      [("k1", [("a", Value.vStr "x")])]
      [("k1", [("a", Value.vStr "x")]), ("k2", [("b", Value.vStr "y")])]
      (by decide) (by decide)⟩

/-- Claim C7: when a field id is in the error set, an edit giving it a
non-null, non-empty value removes exactly that id from the error set — the
edited field is no longer marked, every other id keeps its previous status —
and this happens in `onChange`, with no verify pass. -/
theorem edit_clears_error (localKey : String) (st : FormState) (fieldId e : String)
    (value : Value)
    (hmem : fieldId ∈ st.errors)
    (hnn : value.isNullish = false)
    (hne : value.looseEqEmptyStr = false)
    (he : e ≠ fieldId) :
    fieldId ∉ (onChange localKey st fieldId value).errors
    ∧ ((e ∈ (onChange localKey st fieldId value).errors) ↔ e ∈ st.errors) := by
  have hc : st.errors.contains fieldId = true := contains_iff_mem.mpr hmem
  have herr : (onChange localKey st fieldId value).errors
      = removeError st.errors fieldId := by
    simp [onChange, hc, hnn, hne, hmem]
  rw [herr]
  refine ⟨fun h => (mem_removeError.mp h).2 rfl, ?_, ?_⟩
  · intro h
    exact (mem_removeError.mp h).1
  · intro h
    exact mem_removeError.mpr ⟨h, he⟩

/-- Witness for claim C7: `a` is invalid, editing it to `"x"` unmarks it and
leaves `b` marked. -/
theorem edit_clears_error_witness :
    (("a" : String) ∈ (FormState.mk [] [] ["a", "b"] false).errors
      ∧ (Value.vStr "x").isNullish = false
      ∧ (Value.vStr "x").looseEqEmptyStr = false
      ∧ ("b" : String) ≠ "a")
    ∧ (("a" : String) ∉
        (onChange "k" (FormState.mk [] [] ["a", "b"] false) "a" (Value.vStr "x")).errors
      ∧ ((("b" : String) ∈
          (onChange "k" (FormState.mk [] [] ["a", "b"] false) "a" (Value.vStr "x")).errors) ↔
        ("b" : String) ∈ (FormState.mk [] [] ["a", "b"] false).errors)) :=
  ⟨⟨by decide, by decide, by decide, by decide⟩,
    edit_clears_error "k" (FormState.mk [] [] ["a", "b"] false) "a" "b" (Value.vStr "x")
      (by decide) (by decide) (by decide) (by decide)⟩

/-- Claim C8: an edit that sets a field to null deletes the key from the
in-memory draft and from the durable entry (rather than storing a null), and —
given the draft held no explicit null — no edit ever makes the in-memory draft
or the durable entry hold an explicit null. -/
theorem null_edit_removes_key (localKey : String) (st : FormState)
    (fieldId : String) (value : Value)
    (hinv : noExplicitNulls st.formData) :
    alistLookup (onChange localKey st fieldId Value.vNull).formData fieldId = none
    ∧ alistLookup (onChange localKey st fieldId Value.vNull).formDataMap localKey
        = some (alistRemove st.formData fieldId)
    ∧ alistLookup (alistRemove st.formData fieldId) fieldId = none
    ∧ noExplicitNulls (onChange localKey st fieldId value).formData
    ∧ ∃ entry, alistLookup (onChange localKey st fieldId value).formDataMap localKey
        = some entry ∧ noExplicitNulls entry := by
  have hrem : noExplicitNulls (alistRemove st.formData fieldId) := by
    intro p hp
    exact hinv p (mem_of_mem_alistRemove hp)
  have hfd0 : (onChange localKey st fieldId Value.vNull).formData
      = alistRemove st.formData fieldId := by
    simp [onChange, Value.isNullish]
  have hmap0 : (onChange localKey st fieldId Value.vNull).formDataMap
      = alistInsert st.formDataMap localKey (alistRemove st.formData fieldId) := by
    simp [onChange, Value.isNullish]
  refine ⟨?_, ?_, ?_, ?_, ?_⟩
  · rw [hfd0]
    exact alistLookup_remove_self _ _
  · rw [hmap0]
    exact alistLookup_insert_self _ _ _
  · exact alistLookup_remove_self _ _
  · by_cases hv : value.isNullish = true
    · have hfd : (onChange localKey st fieldId value).formData
          = alistRemove st.formData fieldId := by
        simp [onChange, hv]
      rw [hfd]
      exact hrem
    · have hvn : value ≠ Value.vNull := by
        intro h
        rw [h] at hv
        exact hv rfl
      have hfd : (onChange localKey st fieldId value).formData
          = alistInsert st.formData fieldId value := by
        simp [onChange, hv]
      rw [hfd]
      intro p hp
      rcases mem_alistInsert hp with h1 | h1
      · exact hrem p h1
      · rw [h1]
        exact hvn
  · by_cases hv : value.isNullish = true
    · have hmap : (onChange localKey st fieldId value).formDataMap
          = alistInsert st.formDataMap localKey (alistRemove st.formData fieldId) := by
        simp [onChange, hv]
      rw [hmap]
      exact ⟨alistRemove st.formData fieldId, alistLookup_insert_self _ _ _, hrem⟩
    · have hvn : value ≠ Value.vNull := by
        intro h
        rw [h] at hv
        exact hv rfl
      have hmap : (onChange localKey st fieldId value).formDataMap
          = alistInsert st.formDataMap localKey (alistInsert st.formData fieldId value) := by
        simp [onChange, hv]
      rw [hmap]
      refine ⟨alistInsert st.formData fieldId value, alistLookup_insert_self _ _ _, ?_⟩
      intro p hp
      rcases mem_alistInsert hp with h1 | h1
      · exact hrem p h1
      · rw [h1]
        exact hvn

/-- Witness for claim C8: clearing field `a` to null deletes its key. -/
theorem null_edit_removes_key_witness :
    noExplicitNulls (FormState.mk [] [("a", Value.vStr "x")] [] false).formData
    ∧ (alistLookup
        (onChange "k" (FormState.mk [] [("a", Value.vStr "x")] [] false) "a"
          Value.vNull).formData "a" = none
      ∧ alistLookup
          (onChange "k" (FormState.mk [] [("a", Value.vStr "x")] [] false) "a"
            Value.vNull).formDataMap "k"
        = some (alistRemove (FormState.mk [] [("a", Value.vStr "x")] [] false).formData "a")
      ∧ alistLookup
          (alistRemove (FormState.mk [] [("a", Value.vStr "x")] [] false).formData "a") "a"
        = none
      ∧ noExplicitNulls
          (onChange "k" (FormState.mk [] [("a", Value.vStr "x")] [] false) "a"
            Value.vNull).formData
      ∧ ∃ entry, alistLookup
            (onChange "k" (FormState.mk [] [("a", Value.vStr "x")] [] false) "a"
              Value.vNull).formDataMap "k"
          = some entry ∧ noExplicitNulls entry) :=
  ⟨by decide,
    null_edit_removes_key "k" (FormState.mk [] [("a", Value.vStr "x")] [] false) "a"
      Value.vNull (by decide)⟩

/-- Claim C9: an edit removes a currently-invalid field's id from the error
set exactly when the new value is non-null and not loosely equal to the empty
string; setting such a field to the empty string keeps it marked while storing
`""` in the in-memory draft and the durable entry, and the stored `""` counts
as a non-null entry, so the field is not marked by a subsequent verify. -/
theorem edit_error_only_nonempty (localKey : String) (st : FormState)
    (fieldId : String) (value : Value) (fields : List FieldDescriptor)
    (req : String → Bool) (E : List String)
    (hmem : fieldId ∈ st.errors) :
    ((fieldId ∉ (onChange localKey st fieldId value).errors) ↔
      (value.isNullish = false ∧ value.looseEqEmptyStr = false))
    ∧ fieldId ∈ (onChange localKey st fieldId (Value.vStr "")).errors
    ∧ alistLookup (onChange localKey st fieldId (Value.vStr "")).formData fieldId
        = some (Value.vStr "")
    ∧ alistLookup (onChange localKey st fieldId (Value.vStr "")).formDataMap localKey
        = some (alistInsert st.formData fieldId (Value.vStr ""))
    ∧ entryIsNull
        (alistLookup (onChange localKey st fieldId (Value.vStr "")).formData fieldId)
      = false
    ∧ fieldId ∉ (onVerify (visibleFields fields) req E
        (onChange localKey st fieldId (Value.vStr "")).formData).errors := by
  have hc : st.errors.contains fieldId = true := contains_iff_mem.mpr hmem
  have herr : ∀ v : Value, (onChange localKey st fieldId v).errors
      = if st.errors.contains fieldId && !v.isNullish && !v.looseEqEmptyStr
        then removeError st.errors fieldId else st.errors := by
    intro v
    simp only [onChange]
    split <;> rfl
  have hstr_err : (onChange localKey st fieldId (Value.vStr "")).errors = st.errors := by
    rw [herr]
    simp [Value.looseEqEmptyStr]
  have hstr_fd : (onChange localKey st fieldId (Value.vStr "")).formData
      = alistInsert st.formData fieldId (Value.vStr "") := by
    simp [onChange, Value.isNullish]
  have hstr_map : (onChange localKey st fieldId (Value.vStr "")).formDataMap
      = alistInsert st.formDataMap localKey (alistInsert st.formData fieldId (Value.vStr "")) := by
    simp [onChange, Value.isNullish]
  refine ⟨?_, ?_, ?_, ?_, ?_, ?_⟩
  · constructor
    · intro hno
      cases hn : value.isNullish with
      | false =>
        cases hl : value.looseEqEmptyStr with
        | false => exact ⟨rfl, rfl⟩
        | true =>
          exfalso
          apply hno
          rw [herr value]
          simpa [hl] using hmem
      | true =>
        exfalso
        apply hno
        rw [herr value]
        simpa [hn] using hmem
    · rintro ⟨hnn, hne⟩
      rw [herr value]
      simp only [hc, hnn, hne, Bool.not_false, Bool.and_true, Bool.true_and, if_pos]
      intro h
      exact (mem_removeError.mp h).2 rfl
  · rw [hstr_err]
    exact hmem
  · rw [hstr_fd]
    exact alistLookup_insert_self _ _ _
  · rw [hstr_map]
    exact alistLookup_insert_self _ _ _
  · rw [hstr_fd, alistLookup_insert_self]
    rfl
  · intro hv
    rw [onVerify_errors_mem] at hv
    have h2 := hv.2
    rw [hstr_fd, alistLookup_insert_self] at h2
    simp [entryIsNull, Value.isNullish] at h2

/-- Witness for claim C9 at a concrete invalid field. -/
theorem edit_error_only_nonempty_witness :
    (("a" : String) ∈ (FormState.mk [] [] ["a"] false).errors
    ∧ ((("a" : String) ∉
        (onChange "k" (FormState.mk [] [] ["a"] false) "a" Value.vNull).errors) ↔
      ((Value.vNull).isNullish = false ∧ (Value.vNull).looseEqEmptyStr = false))
    ∧ ("a" : String) ∈
        (onChange "k" (FormState.mk [] [] ["a"] false) "a" (Value.vStr "")).errors
    ∧ alistLookup
        (onChange "k" (FormState.mk [] [] ["a"] false) "a" (Value.vStr "")).formData "a"
      = some (Value.vStr "")
    ∧ alistLookup
        (onChange "k" (FormState.mk [] [] ["a"] false) "a" (Value.vStr "")).formDataMap "k"
      = some (alistInsert (FormState.mk [] [] ["a"] false).formData "a" (Value.vStr ""))
    ∧ entryIsNull
        (alistLookup
          (onChange "k" (FormState.mk [] [] ["a"] false) "a" (Value.vStr "")).formData "a")
      = false
    ∧ ("a" : String) ∉
        (onVerify (visibleFields [{ id := "a", isComputed := false, isLookup := false }])
          (fun _ => true) []
          (onChange "k" (FormState.mk [] [] ["a"] false) "a" (Value.vStr "")).formData).errors) :=
  ⟨by decide,
    edit_error_only_nonempty "k" (FormState.mk [] [] ["a"] false) "a" Value.vNull
      [{ id := "a", isComputed := false, isLookup := false }] (fun _ => true) []
      (by decide)⟩

/-- Claim C10, failing evaluation: no submit collaborator is supplied, the
form mounted with a persisted draft `{a: "x"}` at key `k` (mount-time seed
`{a: "x"}`), the required field `a` is filled, and submit is triggered.  No
external call is made, the busy flag is set in flight, the durable entry for
`k` is removed, the busy flag ends false and the toast fires — but the
delayed reset restores the in-memory draft to the mount-time seed `{a: "x"}`
instead of clearing it (react-use `useMap.reset` restores the initial map
captured at mount), so the claim's "clearing the in-memory draft" is false
here. -/
theorem submit_without_collaborator_keeps_seed :
    (onSubmit false "k" [("a", Value.vStr "x")]
        (visibleFields [{ id := "a", isComputed := false, isLookup := false }])
        (fun _ => true)
        (FormState.mk [("k", [("a", Value.vStr "x")])] [("a", Value.vStr "x")] [] false)).submitCalls
      = []
    ∧ (onSubmit false "k" [("a", Value.vStr "x")]
        (visibleFields [{ id := "a", isComputed := false, isLookup := false }])
        (fun _ => true)
        (FormState.mk [("k", [("a", Value.vStr "x")])] [("a", Value.vStr "x")] [] false)).inFlight
      = some (FormState.mk [("k", [("a", Value.vStr "x")])] [("a", Value.vStr "x")] [] true)
    ∧ (onSubmit false "k" [("a", Value.vStr "x")]
        (visibleFields [{ id := "a", isComputed := false, isLookup := false }])
        (fun _ => true)
        (FormState.mk [("k", [("a", Value.vStr "x")])] [("a", Value.vStr "x")] [] false)).final.formData
      = [("a", Value.vStr "x")]
    ∧ (onSubmit false "k" [("a", Value.vStr "x")]
        (visibleFields [{ id := "a", isComputed := false, isLookup := false }])
        (fun _ => true)
        (FormState.mk [("k", [("a", Value.vStr "x")])] [("a", Value.vStr "x")] [] false)).final.formData
      ≠ []
    ∧ alistLookup (onSubmit false "k" [("a", Value.vStr "x")]
        (visibleFields [{ id := "a", isComputed := false, isLookup := false }])
        (fun _ => true)
        (FormState.mk [("k", [("a", Value.vStr "x")])] [("a", Value.vStr "x")] [] false)).final.formDataMap
        "k" = none
    ∧ (onSubmit false "k" [("a", Value.vStr "x")]
        (visibleFields [{ id := "a", isComputed := false, isLookup := false }])
        (fun _ => true)
        (FormState.mk [("k", [("a", Value.vStr "x")])] [("a", Value.vStr "x")] [] false)).final.loading
      = false
    ∧ (onSubmit false "k" [("a", Value.vStr "x")]
        (visibleFields [{ id := "a", isComputed := false, isLookup := false }])
        (fun _ => true)
        (FormState.mk [("k", [("a", Value.vStr "x")])] [("a", Value.vStr "x")] [] false)).notified
      = true := by
  decide

end FormPreviewer
